import Mathlib

/-
Verification of the expression-evaluation engine (src/engine.go, src/parse.go).

Shallow embedding conventions:
* Go `int`, `int8`, `int16` indices and counters are modelled as `Int`
  (or `Nat` where the Go value is provably non-negative); no arithmetic in
  the modelled fragment depends on machine-width overflow.
* Go `Value = interface{}` is modelled by the tagged sum `Value` below
  (the variants actually produced by the engine: int64, string, bool,
  []int64, []string, and the nil interface `vNull`).
* Go runtime panics (slice index out of range, failed type assertions,
  calls through nil function values) are modelled by explicit `panicked`
  result constructors.
* Go's unbounded `for` loops are modelled by fuel-indexed recursion with a
  distinguished `fuelOut` result; theorems about termination show the fuel
  is sufficient.
* `unicode.IsSpace` / `IsLetter` / `IsNumber` are modelled by
  `Char.isWhitespace` / `Char.isAlpha` / `Char.isDigit`; the sources in all
  claims are ASCII, where these agree.
-/

namespace eval

/-! ## Data model (engine.go lines 10-60) -/

/-- Go `type SelectorKey int16`. -/
abbrev SelectorKey := Int

/-- Go `type Value interface{}`: the dynamically tagged scalar. -/
inductive Value where
  | vInt (i : Int)
  | vStr (s : String)
  | vBool (b : Bool)
  | vInts (l : List Int)
  | vStrs (l : List String)
  | vNull
  deriving Repr, DecidableEq

/-- Result of a Go call `(Value, error)` that may also panic
(`params[0]` on an empty slice, for instance). -/
inductive OpRes where
  | ok (v : Value)
  | err (e : String)
  | panicked
  deriving Repr, DecidableEq

/-- Go `Ctx` (engine.go lines 16-19): the embedded `Selector` interface is
its `Get` method; the embedded `context.Context` is modelled by the one bit
the engine could observe, whether the context is cancelled. -/
structure Ctx where
  get : SelectorKey → String → Except String Value
  cancelled : Bool

/-- Go `type Operator func(ctx *Ctx, params []Value) (res Value, err error)`. -/
def Operator := Ctx → List Value → OpRes

-- node type and short-circuit flag bits (engine.go lines 21-34)
def nodeTypeMask : Nat := 0b111
def constant : Nat := 0b001
def selector : Nat := 0b010
def operator : Nat := 0b011
def fastOperator : Nat := 0b100
def cond : Nat := 0b101
def debug : Nat := 0b111
def scIfFalse : Nat := 0b001000
def scIfTrue : Nat := 0b010000

/-- Go `node` struct (engine.go lines 36-44), the AST-level node.
A Go nil `Operator` function value is `none`. -/
structure node where
  flag : Nat := 0
  childCnt : Int := 0
  scIdx : Int := 0
  childIdx : Int := 0
  selKey : SelectorKey := 0
  value : Value := Value.vNull
  operator : Option Operator := none

/-- Modelled from the spec: `labNode`, the linear program node, is declared
outside src/. Its fields and their meanings are fixed by their uses in
src/engine.go `Eval`: `flag` (type and short-circuit bits), `child`
(operand count, line 161), `scPos` (short-circuit jump target with `-1`
sentinel, line 184), `osTop` (operand-stack top to restore when landing
here, line 189), `selKey`, `value`, `operator`. -/
structure labNode where
  flag : Nat := 0
  child : Int := 0
  scPos : Int := 0
  osTop : Int := 0
  selKey : SelectorKey := 0
  value : Value := Value.vNull
  operator : Option Operator := none

/-- Go `Expr` (engine.go lines 50-60); the "extra info" debug fields are
not read by `Eval` and are omitted. -/
structure Expr where
  maxStackSize : Int
  labNodes : List labNode

/-! ## Evaluator (engine.go lines 94-196) -/

/-- Result of one evaluation: Go `(Value, error)` plus the panic and
fuel-exhaustion outcomes of the embedding. -/
inductive EvalOut where
  | ok (v : Value)
  | err (e : String)
  | panicked
  | fuelOut
  deriving Repr, DecidableEq

/-- Read `os[k]` with Go slice semantics: out of range is a panic (`none`). -/
def osIdx (os : List Value) (k : Int) : Option Value :=
  if k < 0 then none else os.get? k.toNat

/-- Write `os[k] = v` with Go slice semantics: out of range is a panic. -/
def osWrite (os : List Value) (k : Int) (v : Value) : Option (List Value) :=
  if k < 0 ∨ (os.length : Int) ≤ k then none else some (os.set k.toNat v)

/-- The short-circuit condition of engine.go lines 182-183:
`(!b && curt.flag&scIfFalse == scIfFalse) || (b && curt.flag&scIfTrue == scIfTrue)`. -/
def scMatch (b : Bool) (flag : Nat) : Bool :=
  (!b && decide (flag &&& scIfFalse = scIfFalse)) ||
    (b && decide (flag &&& scIfTrue = scIfTrue))

/-- Outcome of the short-circuit loop of engine.go lines 182-190. -/
inductive ChaseOut where
  | ret
  | exit (i : Nat) (osTop : Int)
  | panicked
  | fuelOut
  deriving Repr, DecidableEq

/-- The short-circuit loop (engine.go lines 182-190): while the boolean
result `b` matches a short-circuit flag of the current node, jump:
`i = curt.scPos` (`-1` returns the result), `curt = nodes[i]`,
`osTop = curt.osTop`.  On normal exit returns the final `i` and `osTop`. -/
def scChase (nodes : List labNode) (b : Bool) : Nat → Nat → Int → labNode → ChaseOut
  | 0, _, _, _ => .fuelOut
  | fuel + 1, i, osTop, curt =>
    if scMatch b curt.flag then
      if curt.scPos = -1 then .ret
      else if curt.scPos < 0 then .panicked
      else
        match nodes.get? curt.scPos.toNat with
        | none => .panicked
        | some c2 => scChase nodes b fuel curt.scPos.toNat c2.osTop c2
    else .exit i osTop

/-- Resolution of a fast-operator child (engine.go lines 128-135 and
139-146): take its `value`; if the child is a selector, look it up, where
the Go code asserts `res.(string)` (panic on a non-string value). -/
def resolveFastChild (ctx : Ctx) (c : labNode) : OpRes :=
  if c.flag &&& nodeTypeMask = selector then
    match c.value with
    | Value.vStr s =>
      match ctx.get c.selKey s with
      | Except.ok v => OpRes.ok v
      | Except.error e => OpRes.err e
    | _ => OpRes.panicked
  else OpRes.ok c.value

/-- Outcome of the per-step dispatch `switch` (engine.go lines 125-180):
either a result with the updated instruction index and stack top, an error,
a panic, or `skip` for the `default:` branch (debug print, `continue`). -/
inductive StepOut where
  | res (r : Value) (i : Nat) (osTop : Int)
  | err (e : String)
  | panicked
  | skip
  deriving Repr, DecidableEq

/-- The dispatch `switch curt.flag & nodeTypeMask` of engine.go
lines 125-180, for the node `curt = nodes[i]`. -/
def dispatch (ctx : Ctx) (nodes : List labNode) (curt : labNode)
    (i : Nat) (osTop : Int) (os : List Value) : StepOut :=
  let typ := curt.flag &&& nodeTypeMask
  if typ = fastOperator then
    match nodes.get? (i + 1) with
    | none => .panicked
    | some c1 =>
      match resolveFastChild ctx c1 with
      | OpRes.err e => .err e
      | OpRes.panicked => .panicked
      | OpRes.ok v1 =>
        match nodes.get? (i + 2) with
        | none => .panicked
        | some c2 =>
          match resolveFastChild ctx c2 with
          | OpRes.err e => .err e
          | OpRes.panicked => .panicked
          | OpRes.ok v2 =>
            match curt.operator with
            | none => .panicked
            | some f =>
              match f ctx [v1, v2] with
              | OpRes.ok r => .res r (i + 2) osTop
              | OpRes.err e => .err e
              | OpRes.panicked => .panicked
  else if typ = selector then
    match curt.value with
    | Value.vStr s =>
      match ctx.get curt.selKey s with
      | Except.ok r => .res r i osTop
      | Except.error e => .err e
    | _ => .panicked
  else if typ = constant then
    .res curt.value i osTop
  else if typ = operator then
    let cCnt := curt.child
    let osTop2 := osTop - cCnt
    if cCnt = 2 then
      match osIdx os (osTop2 + 1), osIdx os (osTop2 + 2) with
      | some v1, some v2 =>
        (match curt.operator with
         | none => .panicked
         | some f =>
           match f ctx [v1, v2] with
           | OpRes.ok r => .res r i osTop2
           | OpRes.err e => .err e
           | OpRes.panicked => .panicked)
      | _, _ => .panicked
    else if cCnt < 0 then .panicked
    else if osTop2 + 1 < 0 ∨ (os.length : Int) < osTop2 + 1 then .panicked
    else
      let avail := (os.drop (osTop2 + 1).toNat).take cCnt.toNat
      let params := avail ++ List.replicate (cCnt.toNat - avail.length) Value.vNull
      match curt.operator with
      | none => .panicked
      | some f =>
        match f ctx params with
        | OpRes.ok r => .res r i osTop2
        | OpRes.err e => .err e
        | OpRes.panicked => .panicked
  else .skip

/-- The main loop of engine.go lines 120-195, with one unit of fuel
consumed per loop entry.  `nodes.get? i = none` is the loop exit
`i < size` failing, which returns `os[0]`. -/
def evalLoop (ctx : Ctx) (nodes : List labNode) : Nat → Nat → Int → List Value → EvalOut
  | 0, _, _, _ => .fuelOut
  | fuel + 1, i, osTop, os =>
    match nodes.get? i with
    | none =>
      match os.get? 0 with
      | some v => .ok v
      | none => .panicked
    | some curt =>
      match dispatch ctx nodes curt i osTop os with
      | StepOut.skip => evalLoop ctx nodes fuel (i + 1) osTop os
      | StepOut.err e => .err e
      | StepOut.panicked => .panicked
      | StepOut.res r i2 osTop2 =>
        match r with
        | Value.vBool b =>
          match scChase nodes b (nodes.length + 1) i2 osTop2 curt with
          | ChaseOut.ret => .ok r
          | ChaseOut.panicked => .panicked
          | ChaseOut.fuelOut => .fuelOut
          | ChaseOut.exit i3 osTop3 =>
            match osWrite os (osTop3 + 1) r with
            | none => .panicked
            | some os2 => evalLoop ctx nodes fuel (i3 + 1) (osTop3 + 1) os2
        | _ =>
          match osWrite os (osTop2 + 1) r with
          | none => .panicked
          | some os2 => evalLoop ctx nodes fuel (i2 + 1) (osTop2 + 1) os2

/-- Go method `(e *Expr) Eval(ctx *Ctx)` (engine.go lines 94-196):
allocate the operand stack (8 / 16 / `size` slots, engine.go
lines 104-111; Go `make` zero-fills, i.e. nil interfaces), start at
`i = 0`, `osTop = -1`. -/
def Expr.Eval (e : Expr) (ctx : Ctx) (fuel : Nat) : EvalOut :=
  let size := e.labNodes.length
  let osLen : Nat := if e.maxStackSize ≤ 8 then 8 else if e.maxStackSize ≤ 16 then 16 else size
  evalLoop ctx e.labNodes fuel 0 (-1) (List.replicate osLen Value.vNull)

-- sanity examples (concrete executions of the embedding)
def ctxNull : Ctx := ⟨fun _ _ => Except.ok Value.vNull, false⟩

def constNode (v : Value) : labNode :=
  { flag := constant, child := 0, scPos := -1, osTop := 0, value := v }

def scNodeFalse : labNode :=
  { flag := constant ||| scIfFalse, child := 0, scPos := -1, osTop := 0,
    value := Value.vBool false }

def progC1 : List labNode := [scNodeFalse, constNode (Value.vInt 3)]

def gSeven : SelectorKey → String → Except String Value :=
  fun _ _ => Except.ok (Value.vInt 7)

/-- A cancelled context: the `context.Context` in `Ctx` is done. -/
def ctxCancelled : Ctx := ⟨gSeven, true⟩

def selNodeX : labNode :=
  { flag := selector, child := 0, scPos := -1, osTop := 0,
    value := Value.vStr "x", selKey := 0 }

def idOp : Operator := fun _ ps =>
  match ps with
  | [v] => OpRes.ok v
  | _ => OpRes.err "arity"

def opNode1 : labNode :=
  { flag := operator, child := 1, scPos := -1, osTop := 0, operator := some idOp }

/-! ## C7: termination within `len(program)` dispatched steps -/

/-- The layout invariant of the spec: every node's `sc_target` is either
`-1` or a strictly later index of the program. -/
def scForward (nodes : List labNode) : Prop :=
  ∀ i : Nat, ∀ h : i < nodes.length,
    (nodes.get ⟨i, h⟩).scPos = -1 ∨
      ((i : Int) < (nodes.get ⟨i, h⟩).scPos ∧
        (nodes.get ⟨i, h⟩).scPos < (nodes.length : Int))

instance (nodes : List labNode) : Decidable (scForward nodes) :=
  Nat.decidableBallLT _ _

/-! ## Lexer and parser data model (parse.go lines 11-69) -/

/-- Go `type tokenType string` (parse.go line 11). -/
abbrev tokenType := String

def integer : tokenType := "integer"
def str : tokenType := "str"
def ident : tokenType := "ident"
def lParen : tokenType := "lParen"
def rParen : tokenType := "rParen"
def comment : tokenType := "comment"

/-- Go `type keyword string` constants (parse.go lines 22-36). -/
def keywordIf : String := "if"

def keywords : List String :=
  ["if", "let", "any", "all", "map", "filter", "reduce", "collect"]

/-- Go `token` struct (parse.go lines 42-46); `pos` is a rune offset. -/
structure token where
  typ : tokenType := ""
  val : String := ""
  pos : Nat := 0
  deriving Repr, DecidableEq

/-- Go `astNode` struct (parse.go lines 49-55); recursive, so an inductive
with the `node` field accessed as `nd`. -/
inductive astNode where
  | mk (nd : node) (children : List astNode) (cost : Int) (idx : Int) (parentIdx : Int)

def astNode.nd : astNode → node
  | .mk n _ _ _ _ => n

def astNode.children : astNode → List astNode
  | .mk _ c _ _ _ => c

/-- Modelled from the spec: `CompileConfig` is declared outside src/.  The
parser reads its constant / selector / operator registries (spec §6.1-6.3,
Go maps, modelled as optional-valued functions) and the
`AllowUnknownSelectors` compile option (parse.go line 289). -/
structure CompileConfig where
  ConstantMap : String → Option Value
  SelectorMap : String → Option SelectorKey
  OperatorMap : String → Option Operator
  AllowUnknownSelectors : Bool

/-- Modelled from the spec: the reserved `Undefined` selector key ("name
not pre-registered; resolve lazily by string", spec §3), declared outside
src/; its concrete value is irrelevant to the claims. -/
def UndefinedSelKey : SelectorKey := -1

/-- Modelled from the spec: the package-level builtin registries
`builtinConstants` and `builtinOperators` (spec §6.1-6.2) are declared
outside src/. -/
structure Pkg where
  builtinConstants : String → Option Value
  builtinOperators : String → Option Operator

/-- Go `parser` struct (parse.go lines 57-62); the source is kept as the
rune slice `[]rune(p.source)`. -/
structure parser where
  source : List Char
  conf : CompileConfig
  tokens : List token := []
  idx : Nat := 0

/-- A parse-time error.  `errWithPos` (parse.go line 336) attaches the
offending rune offset; the Go rendering of the ±30-rune source window into
the error string (parse.go `pos`, lines 348-367) is presentation only and
is elided — `posErr` keeps the message and the offset.  `rawErr` is an
error returned without position (the `strconv` failures). -/
inductive PErr where
  | posErr (msg : String) (pos : Nat)
  | rawErr (msg : String)
  deriving Repr, DecidableEq

/-- Result of a parser step: Go `(x, error)` plus panic (index out of
range) and the fuel-exhaustion artifact of the embedding. -/
inductive PRes (α : Type) where
  | ok (a : α)
  | err (e : PErr)
  | panicked
  | fuelOut

def invalidExprErr (pos : Nat) : PErr := .posErr "invalid expression error" pos

def unknownTokenError (t : token) : PErr := .posErr "unknown token error" t.pos

def tokenTypeError (want : tokenType) (t : token) : PErr :=
  .posErr ("token type unexpected error (want: " ++ want ++ ", got: " ++ t.typ ++ ")") t.pos

def parenUnmatchedErr (pos : Nat) : PErr := .posErr "parentheses unmatched error" pos

def paramsCountErr (want got : Nat) (t : token) : PErr :=
  .posErr (t.val ++ " parameters count error (want: " ++ toString want ++ ", got: "
    ++ toString got ++ ")") t.pos

/-! ## Lexer (parse.go lines 71-213) -/

/-- Characters ending a bare token (the `nextToken` closure, parse.go
lines 73-81): white space, parens, or `;`. -/
def stopChar (r : Char) : Bool := r.isWhitespace || r = '(' || r = ')' || r = ';'

def nextTokenLen : List Char → Nat
  | [] => 0
  | c :: cs => if stopChar c then 0 else nextTokenLen cs + 1

/-- Go `nextToken(A, i)`: the maximal stop-free run starting at `i` and
the index just past it. -/
def nextToken (A : List Char) (i : Nat) : String × Nat :=
  let l := nextTokenLen (A.drop i)
  (String.mk ((A.drop i).take l), i + l)

/-- Go `lexParen` (parse.go lines 83-95): `(`/`[` open, `)`/`]` close
(the even index in `"()[]"` is an open paren).  `none` models the
"no characters consumed" return `(token{}, i)`. -/
def lexParen (A : List Char) (i : Nat) : Option (token × Nat) :=
  match A.get? i with
  | none => none
  | some c =>
    if c = '(' ∨ c = '[' then some ({ typ := lParen, val := String.mk [c] }, i + 1)
    else if c = ')' ∨ c = ']' then some ({ typ := rParen, val := String.mk [c] }, i + 1)
    else none

def digitsValAux : Nat → List Char → Nat
  | acc, [] => acc
  | acc, c :: cs => digitsValAux (acc * 10 + (c.toNat - 48)) cs

/-- Go `strconv.ParseInt(s, 10, 64)`: optional sign, then a non-empty run
of decimal digits, checked against the signed 64-bit range. -/
def parseInt64 (s : String) : Option Int :=
  let cs := s.toList
  let signed : Bool × List Char :=
    match cs with
    | '-' :: rest => (true, rest)
    | '+' :: rest => (false, rest)
    | _ => (false, cs)
  let ds := signed.2
  if ds.isEmpty then none
  else if ds.all Char.isDigit then
    let v : Int := if signed.1 then -(digitsValAux 0 ds : Int) else (digitsValAux 0 ds : Int)
    if -(2 ^ 63) ≤ v ∧ v ≤ 2 ^ 63 - 1 then some v else none
  else none

/-- Go `lexInteger` (parse.go lines 97-106). -/
def lexInteger (A : List Char) (i : Nat) : Option (token × Nat) :=
  let sj := nextToken A i
  match parseInt64 sj.1 with
  | some _ => some ({ typ := integer, val := sj.1 }, sj.2)
  | none => none

/-- Offset of the first `"` in the list, if any. -/
def strEnd : List Char → Option Nat
  | [] => none
  | c :: cs => if c = '"' then some 0 else (strEnd cs).map (· + 1)

/-- Go `lexStr` (parse.go lines 108-123): a double quote, the run up to
the next double quote (no escapes); an unterminated string does not
consume. -/
def lexStr (A : List Char) (i : Nat) : Option (token × Nat) :=
  match A.get? i with
  | some c =>
    if c = '"' then
      match strEnd (A.drop (i + 1)) with
      | some d => some ({ typ := str, val := String.mk ((A.drop (i + 1)).take d) }, i + 1 + d + 1)
      | none => none
    else none
  | none => none

/-- The character loop of Go `lexIdent` (parse.go lines 128-150): digits
allowed except at index 0, letters and `_` allowed anywhere; any other
character (including a leading digit) makes the token acceptable only if
the whole string is a registered builtin operator name. -/
def identScan (bops : String → Option Operator) (s : String) : List Char → Nat → Bool
  | [], _ => true
  | r :: rest, idx =>
    if r.isDigit && decide (idx ≠ 0) then identScan bops s rest (idx + 1)
    else if r.isAlpha then identScan bops s rest (idx + 1)
    else if r = '_' then identScan bops s rest (idx + 1)
    else (bops s).isSome

/-- Go `lexIdent` (parse.go lines 125-159). -/
def lexIdent (bops : String → Option Operator) (A : List Char) (i : Nat) :
    Option (token × Nat) :=
  let sj := nextToken A i
  if identScan bops sj.1 sj.1.toList 0 && decide (i ≠ sj.2) then
    some ({ typ := ident, val := sj.1 }, sj.2)
  else none

def commentLen : List Char → Nat
  | [] => 0
  | c :: cs => if c = '\n' then 0 else commentLen cs + 1

/-- Go `lexComment` (parse.go lines 160-176): from `;` to the next
newline; the returned index skips the newline. -/
def lexComment (A : List Char) (i : Nat) : Option (token × Nat) :=
  match A.get? i with
  | some c =>
    if c = ';' then
      some ({ typ := comment, val := String.mk ((A.drop i).take (commentLen (A.drop i))) },
        i + commentLen (A.drop i) + 1)
    else none
  | none => none

/-- The inner loop of Go `lex` (parse.go lines 196-206) over the ordered
`lexers` list (lines 178-184), unrolled: paren, integer, string, ident,
comment; the first lexer that consumes characters wins. -/
def runLexers (bops : String → Option Operator) (A : List Char) (i : Nat) :
    Option (token × Nat) :=
  match lexParen A i with
  | some r => some r
  | none =>
    match lexInteger A i with
    | some r => some r
    | none =>
      match lexStr A i with
      | some r => some r
      | none =>
        match lexIdent bops A i with
        | some r => some r
        | none => lexComment A i

/-- The outer loop of Go `lex` (parse.go lines 187-212): skip white space,
run the lexers, record the position, or fail with "can not parse token". -/
def lexLoop (bops : String → Option Operator) (A : List Char) : Nat → Nat → PRes (List token)
  | 0, _ => .fuelOut
  | fuel + 1, i =>
    match A.get? i with
    | none => .ok []
    | some r =>
      if r.isWhitespace then lexLoop bops A fuel (i + 1)
      else
        match runLexers bops A i with
        | some tj =>
          match lexLoop bops A fuel tj.2 with
          | .ok ts => .ok ({ tj.1 with pos := i } :: ts)
          | other => other
        | none => .err (.posErr "can not parse token" i)

/-- Go `(p *parser) lex()` (parse.go lines 71-213); each loop step
consumes at least one rune, so `length + 1` fuel is always enough. -/
def parser.lex (bops : String → Option Operator) (p : parser) : PRes parser :=
  match lexLoop bops p.source (p.source.length + 1) 0 with
  | .ok ts => .ok { p with tokens := ts }
  | .err e => .err e
  | .panicked => .panicked
  | .fuelOut => .fuelOut

/-! ## Parser (parse.go lines 215-596) -/

/-- Go `p.peek()` (parse.go lines 278-280); out of range is an index
panic. -/
def parser.peek (p : parser) : Option token := p.tokens.get? p.idx

/-- Go `p.next()` (parse.go lines 282-286). -/
def parser.next (p : parser) : Option (token × parser) :=
  match p.tokens.get? p.idx with
  | some t => some (t, { p with idx := p.idx + 1 })
  | none => none

/-- Go `p.walk()` (parse.go lines 306-308). -/
def parser.walk (p : parser) : parser := { p with idx := p.idx + 1 }

def parser.allowUnknownSelectors (p : parser) : Bool := p.conf.AllowUnknownSelectors

/-- Go `p.eat(expectTypes...)` (parse.go lines 292-304), in the one-type
form it is used with in `parseExpression`. -/
def parser.eat (p : parser) (expectType : tokenType) : PRes parser :=
  match p.next with
  | none => .panicked
  | some (t, p2) =>
    if t.typ = expectType then .ok p2 else .err (tokenTypeError expectType t)

/-- Go `p.valNode(v)` (parse.go lines 369-376): a Constant astNode. -/
def parser.valNode (_p : parser) (v : Value) : astNode :=
  .mk { flag := constant, value := v } [] 0 0 0

/-- The element loop of Go `parseList` (parse.go lines 389-398): scan from
`j`, stop at the first `rParen` recording its index (Go `i = j; break`),
reject an element of the wrong token type, collect the raw strings.
`none` as the second component means the loop ran off the end without a
break (the enclosing `i` keeps its old value). -/
def listScan (typ : tokenType) : List token → Nat → PRes (List String × Option Nat)
  | [], _ => .ok ([], none)
  | t :: rest, j =>
    if t.typ = rParen then .ok ([], some j)
    else if t.typ = typ then
      match listScan typ rest (j + 1) with
      | .ok sb => .ok (t.val :: sb.1, sb.2)
      | .err e => .err e
      | .panicked => .panicked
      | .fuelOut => .fuelOut
    else .err (tokenTypeError typ t)

/-- The integer conversion loop of Go `parseList` (parse.go lines
404-411); a `strconv` failure is returned raw. -/
def parseInts : List String → PRes (List Int)
  | [] => .ok []
  | s :: rest =>
    match parseInt64 s with
    | none => .err (.rawErr ("strconv parse error: " ++ s))
    | some v =>
      match parseInts rest with
      | .ok vs => .ok (v :: vs)
      | .err e => .err e
      | .panicked => .panicked
      | .fuelOut => .fuelOut

/-- Go `p.parseList()` (parse.go lines 378-420). -/
def parser.parseList (p : parser) : PRes (Option astNode × parser) :=
  match p.tokens.get? p.idx with
  | none => .panicked
  | some t0 =>
    if t0.typ ≠ lParen then .ok (none, p)
    else
      match p.tokens.get? (p.idx + 1) with
      | none => .panicked
      | some t1 =>
        let typ := t1.typ
        if typ ≠ rParen ∧ typ ≠ integer ∧ typ ≠ str then .ok (none, p)
        else
          match listScan typ (p.tokens.drop (p.idx + 1)) (p.idx + 1) with
          | .err e => .err e
          | .panicked => .panicked
          | .fuelOut => .fuelOut
          | .ok sb =>
            let i2 := match sb.2 with | some j => j | none => p.idx
            if typ = integer then
              match parseInts sb.1 with
              | .err e => .err e
              | .panicked => .panicked
              | .fuelOut => .fuelOut
              | .ok ints =>
                .ok (some (.mk { flag := constant, value := Value.vInts ints } [] 0 0 0),
                  { p with idx := i2 + 1 })
            else
              .ok (some (.mk { flag := constant, value := Value.vStrs sb.1 } [] 0 0 0),
                { p with idx := i2 + 1 })

/-- Go `p.parseInt()` (parse.go lines 422-433). -/
def parser.parseInt (p : parser) : PRes (Option astNode × parser) :=
  match p.peek with
  | none => .panicked
  | some t =>
    if t.typ ≠ integer then .ok (none, p)
    else
      match parseInt64 t.val with
      | none => .err (.rawErr ("strconv parse error: " ++ t.val))
      | some v => .ok (some (p.valNode (Value.vInt v)), p.walk)

/-- Go `p.parseStr()` (parse.go lines 434-441). -/
def parser.parseStr (p : parser) : PRes (Option astNode × parser) :=
  match p.peek with
  | none => .panicked
  | some t =>
    if t.typ ≠ str then .ok (none, p)
    else .ok (some (p.valNode (Value.vStr t.val)), p.walk)

/-- Go `p.parseConst()` (parse.go lines 442-458): builtin constants first,
then the caller's constant map. -/
def parser.parseConst (pkg : Pkg) (p : parser) : PRes (Option astNode × parser) :=
  match p.peek with
  | none => .panicked
  | some t =>
    if t.typ ≠ ident then .ok (none, p)
    else
      match pkg.builtinConstants t.val with
      | some v => .ok (some (p.valNode v), p.walk)
      | none =>
        match p.conf.ConstantMap t.val with
        | some v => .ok (some (p.valNode v), p.walk)
        | none => .ok (none, p)

/-- Go `p.parseSelector()` (parse.go lines 460-482): the caller's selector
map, else the `Undefined` key when unknown selectors are allowed, else no
match.  The node keeps the name string as its `value` (the lookup hint). -/
def parser.parseSelector (p : parser) : PRes (Option astNode × parser) :=
  match p.peek with
  | none => .panicked
  | some t =>
    if t.typ ≠ ident then .ok (none, p)
    else
      match p.conf.SelectorMap t.val with
      | some key =>
        .ok (some (.mk { flag := selector, value := Value.vStr t.val, selKey := key } [] 0 0 0),
          p.walk)
      | none =>
        if p.allowUnknownSelectors then
          .ok (some (.mk { flag := selector, value := Value.vStr t.val, selKey := UndefinedSelKey } [] 0 0 0), p.walk)
        else .ok (none, p)

/-- Go `p.parseSingleNode()` (parse.go lines 484-494): the first of
parseInt, parseStr, parseConst, parseSelector, parseList that produces a
node or an error. -/
def parser.parseSingleNode (pkg : Pkg) (p : parser) : PRes (Option astNode × parser) :=
  match p.parseInt with
  | .ok (none, p1) =>
    match p1.parseStr with
    | .ok (none, p2) =>
      match p2.parseConst pkg with
      | .ok (none, p3) =>
        match p3.parseSelector with
        | .ok (none, p4) => p4.parseList
        | other => other
      | other => other
    | other => other
  | other => other

/-- Go `p.isKeyword(car)` (parse.go lines 530-537). -/
def parser.isKeyword (_p : parser) (car : token) : Bool := keywords.contains car.val

/-- The `if`-condition operator (parse.go lines 553-560): returns the
negation of a boolean condition ("trigger short circuit when cond node
returns false"), a type error otherwise; Go `params[0]` panics on an empty
parameter slice.  The Go message interpolates the offending value; the
rendering of the value is elided. -/
def condIfOp : Operator := fun _ params =>
  match params with
  | [] => OpRes.panicked
  | v :: _ =>
    match v with
    | Value.vBool b => OpRes.ok (Value.vBool !b)
    | _ => OpRes.err "condition node returns a non bool result"

/-- The synthetic end-if ("fi") operator (parse.go lines 567-569):
returns `true` unconditionally. -/
def fiOp : Operator := fun _ _ => OpRes.ok (Value.vBool true)

/-- The appended "fi" terminator child (parse.go lines 563-571). -/
def fiNode : astNode :=
  .mk { flag := cond, value := Value.vStr "fi", operator := some fiOp } [] 0 0 0

/-- Go `p.buildKeywordNode(car, children)` (parse.go lines 539-573).
Go stores the `keyword` (a string type) in `value`; modelled as the
string. -/
def parser.buildKeywordNode (_p : parser) (car : token) (children : List astNode) :
    PRes astNode :=
  if car.val ≠ keywordIf then
    .err (.posErr ("[" ++ car.val ++ "] is not currently supported") car.pos)
  else if children.length ≠ 3 then .err (paramsCountErr 3 children.length car)
  else
    .ok (.mk { flag := cond, value := Value.vStr "if", operator := some condIfOp }
      (children ++ [fiNode]) 0 0 0)

/-- Go `p.buildNode(car, children)` (parse.go lines 575-596). -/
def parser.buildNode (pkg : Pkg) (p : parser) (car : token) (children : List astNode) :
    PRes astNode :=
  if p.isKeyword car then p.buildKeywordNode car children
  else
    match pkg.builtinOperators car.val with
    | some op =>
      .ok (.mk { flag := operator, value := Value.vStr car.val, operator := some op }
        children 0 0 0)
    | none =>
      match p.conf.OperatorMap car.val with
      | some op =>
        .ok (.mk { flag := operator, value := Value.vStr car.val, operator := some op }
          children 0 0 0)
      | none => .err (unknownTokenError car)

/-- The child-collection loop of Go `parseExpression` (parse.go lines
516-523), parameterized by the child parser `pe` (one expression) and its
own fuel. -/
def parser.parseChildrenWith (pe : parser → PRes (astNode × parser)) :
    Nat → parser → PRes (List astNode × parser)
  | 0, _ => .fuelOut
  | fuel + 1, p =>
    match p.peek with
    | none => .panicked
    | some t =>
      if t.typ = rParen then .ok ([], p)
      else
        match pe p with
        | .err e => .err e
        | .panicked => .panicked
        | .fuelOut => .fuelOut
        | .ok cp =>
          match parser.parseChildrenWith pe fuel cp.2 with
          | .err e => .err e
          | .panicked => .panicked
          | .fuelOut => .fuelOut
          | .ok csp => .ok (cp.1 :: csp.1, csp.2)

/-- Go `p.parseExpression()` (parse.go lines 496-528). -/
def parser.parseExpression (pkg : Pkg) : Nat → parser → PRes (astNode × parser)
  | 0, _ => .fuelOut
  | fuel + 1, p =>
    match p.parseSingleNode pkg with
    | .err e => .err e
    | .panicked => .panicked
    | .fuelOut => .fuelOut
    | .ok (some ast, p2) => .ok (ast, p2)
    | .ok (none, p2) =>
      match p2.peek with
      | none => .panicked
      | some t =>
        if t.typ = ident then .err (unknownTokenError t)
        else
          match p2.eat lParen with
          | .err e => .err e
          | .panicked => .panicked
          | .fuelOut => .fuelOut
          | .ok p3 =>
            match p3.next with
            | none => .panicked
            | some carp =>
              if carp.1.typ ≠ ident then .err (tokenTypeError ident carp.1)
              else
                match parser.parseChildrenWith (parser.parseExpression pkg fuel)
                    (fuel + 1) carp.2 with
                | .err e => .err e
                | .panicked => .panicked
                | .fuelOut => .fuelOut
                | .ok csp =>
                  let p6 := csp.2.walk
                  match p6.buildNode pkg carp.1 csp.1 with
                  | .ok ast => .ok (ast, p6)
                  | .err e => .err e
                  | .panicked => .panicked
                  | .fuelOut => .fuelOut

/-- The depth loop of Go `checkParentheses` (parse.go lines 246-257). -/
def parenScan (last : Nat) : List token → Nat → Int → PRes Unit
  | [], _, _ => .ok ()
  | t :: rest, i, cnt =>
    let cnt2 := if t.typ = lParen then cnt + 1 else if t.typ = rParen then cnt - 1 else cnt
    if cnt2 < 0 ∨ (cnt2 = 0 ∧ i ≠ last) then .err (parenUnmatchedErr t.pos)
    else parenScan last rest (i + 1) cnt2

/-- Go `p.checkParentheses()` (parse.go lines 240-260): reads
`p.tokens[0]` and `p.tokens[len-1]` unconditionally — an index panic on an
empty token stream — then checks the running depth. -/
def parser.checkParentheses (p : parser) : PRes Unit :=
  match p.tokens.get? 0 with
  | none => .panicked
  | some t0 =>
    match p.tokens.get? (p.tokens.length - 1) with
    | none => .panicked
    | some tl =>
      if t0.typ ≠ lParen ∨ tl.typ ≠ rParen then .err (parenUnmatchedErr 0)
      else parenScan (p.tokens.length - 1) p.tokens 0 0

/-- Go `p.parseAstTree()` (parse.go lines 215-238): drop comment tokens
(in place, order kept), pre-validate parentheses, parse one expression,
and require all tokens consumed (note Go passes the token index `p.idx`
to the positional error). -/
def parser.parseAstTree (pkg : Pkg) (p : parser) (fuel : Nat) : PRes astNode :=
  let filtered := p.tokens.filter (fun t => t.typ != comment)
  let p1 : parser := { p with tokens := filtered }
  match p1.checkParentheses with
  | .err e => .err e
  | .panicked => .panicked
  | .fuelOut => .fuelOut
  | .ok _ =>
    match parser.parseExpression pkg fuel p1 with
    | .err e => .err e
    | .panicked => .panicked
    | .fuelOut => .fuelOut
    | .ok rp =>
      if rp.2.idx ≠ filtered.length then .err (invalidExprErr rp.2.idx)
      else .ok rp.1

-- concrete configurations for witnesses
def confEmpty : CompileConfig := ⟨fun _ => none, fun _ => none, fun _ => none, false⟩

def pkgEmpty : Pkg := ⟨fun _ => none, fun _ => none⟩

def pDummy : parser := { source := [], conf := confEmpty }

def carIf : token := { typ := ident, val := "if", pos := 7 }

def tokX : token := { typ := ident, val := "x", pos := 0 }

def pIdentX : parser := { source := ['x'], conf := confEmpty, tokens := [tokX], idx := 0 }

/-- The successful continuation of one `lex` loop step: record the token
(with its position set to `i`) and lex on from `j`. -/
def lexCons (bops : String → Option Operator) (A : List Char) (fuel : Nat)
    (i : Nat) (t : token) (j : Nat) : PRes (List token) :=
  match lexLoop bops A fuel j with
  | .ok ts => .ok ({ t with pos := i } :: ts)
  | other => other

def tokComment : token := { typ := comment, val := ";; hello", pos := 0 }

def tokLP : token := { typ := lParen, val := "(", pos := 0 }

def tokRP : token := { typ := rParen, val := ")", pos := 1 }

def pEmptyList : parser :=
  { source := ['(', ')'], conf := confEmpty, tokens := [tokLP, tokRP], idx := 0 }

/-! ## C10: the package-level Eval convenience function -/

/-- Modelled from the spec: the compile entry points called by the
package-level `Eval` (engine.go lines 62-80) — `Compile`,
`NewCompileConfig` composed with `RegisterSelKeys` (a fresh config built
from a variable map), and `NewCtxWithMap` — are declared outside src/ and
abstracted as parameters. -/
structure CompileEnv where
  Compile : CompileConfig → String → Except String Expr
  NewConfigFromVals : List (String × Value) → CompileConfig
  NewCtxWithMap : CompileConfig → List (String × Value) → Ctx

/-- Go package-level `Eval(expr, vals, confs...)` (engine.go lines
62-80). -/
def Eval (env : CompileEnv) (expr : String) (vals : List (String × Value))
    (confs : List CompileConfig) (fuel : Nat) : EvalOut :=
  if confs.length > 1 then EvalOut.err "error: too many compile configurations"
  else
    let conf := match confs with
      | [c] => c
      | _ => env.NewConfigFromVals vals
    match env.Compile conf expr with
    | Except.error e => EvalOut.err e
    | Except.ok tree => tree.Eval (env.NewCtxWithMap conf vals) fuel

def envTriv : CompileEnv :=
  ⟨fun _ _ => Except.error "no compiler", fun _ => confEmpty, fun _ _ => ctxNull⟩

example : Expr.Eval ⟨1, [constNode (Value.vInt 42)]⟩ ctxNull 2 = EvalOut.ok (Value.vInt 42) := by
  decide

/-! ## C1: short-circuit jumps -/

/-- C1: after the evaluator executes a node whose result is the boolean `b`
and whose matching short-circuit flag is set, it follows the jump:
(a) `sc_target = -1` returns the current result immediately;
(b) otherwise the instruction index is set to the node's `sc_target` `j`,
the operand-stack top is restored to the target node's `os_top_at_entry`,
and the flag check is repeated on the target node with the same result
(the chase recurses, possibly chaining further jumps);
(c) the evaluator's step is governed by the chase: on normal exit it pushes
the result at the restored position and continues from there. -/
theorem evalC1_short_circuit
    (ctx : Ctx) (nodes : List labNode) (curt : labNode)
    (i : Nat) (osTop : Int) (os : List Value) (fuel : Nat)
    (b : Bool) (i2 : Nat) (osTop2 : Int)
    (hcurt : nodes[i]? = some curt)
    (hdisp : dispatch ctx nodes curt i osTop os = StepOut.res (Value.vBool b) i2 osTop2)
    (hm : scMatch b curt.flag = true) :
    (curt.scPos = -1 →
       evalLoop ctx nodes (fuel + 1) i osTop os = EvalOut.ok (Value.vBool b))
    ∧ (∀ j : Nat, curt.scPos = (j : Int) → ∀ c2, nodes[j]? = some c2 →
        ∀ cf : Nat, scChase nodes b (cf + 1) i2 osTop2 curt
            = scChase nodes b cf j c2.osTop c2)
    ∧ (∀ i3 osTop3,
        scChase nodes b (nodes.length + 1) i2 osTop2 curt = ChaseOut.exit i3 osTop3 →
        evalLoop ctx nodes (fuel + 1) i osTop os
          = match osWrite os (osTop3 + 1) (Value.vBool b) with
            | none => EvalOut.panicked
            | some os2 => evalLoop ctx nodes fuel (i3 + 1) (osTop3 + 1) os2) := by
  refine ⟨?_, ?_, ?_⟩
  · intro hneg
    have hchase : scChase nodes b (nodes.length + 1) i2 osTop2 curt = ChaseOut.ret := by
      simp [scChase, hm, hneg]
    simp [evalLoop, hcurt, hdisp, hchase]
  · intro j hj c2 hc2 cf
    have hj1 : ¬ curt.scPos = -1 := by omega
    have hj2 : ¬ curt.scPos < 0 := by omega
    have hjt : curt.scPos.toNat = j := by omega
    simp [scChase, hm, hj1, hj2, hjt, hc2]
  · intro i3 osTop3 hexit
    simp [evalLoop, hcurt, hdisp, hexit]

/-- Witness for C1: a concrete two-node program whose first node produces
`false` with the short-circuit-if-false flag set and `sc_target = -1`;
evaluation returns `false` immediately. -/
theorem evalC1_short_circuit_witness :
    progC1[0]? = some scNodeFalse
    ∧ dispatch ctxNull progC1 scNodeFalse 0 (-1) (List.replicate 8 Value.vNull)
        = StepOut.res (Value.vBool false) 0 (-1)
    ∧ scMatch false scNodeFalse.flag = true
    ∧ evalLoop ctxNull progC1 1 0 (-1) (List.replicate 8 Value.vNull)
        = EvalOut.ok (Value.vBool false) :=
  ⟨rfl, rfl, by decide,
    (evalC1_short_circuit ctxNull progC1 scNodeFalse 0 (-1)
        (List.replicate 8 Value.vNull) 0 false 0 (-1) rfl rfl (by decide)).1 rfl⟩

/-! ## C2: behaviour at the end of the program -/

/-- C2 counterexample: a two-constant program terminates with two values on
the stack (`osTop = 1`), yet `Eval` returns `os[0]` successfully instead of
reporting an internal error: no `osTop == 0` assertion exists in the code
(engine.go line 195 is a bare `return os[0], nil`). -/
theorem evalC2_counterexample :
    Expr.Eval ⟨2, [constNode (Value.vInt 1), constNode (Value.vInt 2)]⟩ ctxNull 3
      = EvalOut.ok (Value.vInt 1) := by
  decide

/-- C2 (amended): when the instruction index runs off the end of the
program, `Eval` returns the value at stack position 0; it performs no
`osTop == 0` assertion and reports no internal error, whatever `osTop` is. -/
theorem evalC2_off_end (ctx : Ctx) (nodes : List labNode) (i : Nat) (osTop : Int)
    (os : List Value) (fuel : Nat) (v : Value)
    (hend : nodes[i]? = none)
    (h0 : os[0]? = some v) :
    evalLoop ctx nodes (fuel + 1) i osTop os = EvalOut.ok v := by
  simp [evalLoop, hend, h0]

/-- Witness for C2 (amended): off the end of the empty program with a
non-trivial `osTop = 5`, evaluation returns the bottom stack slot. -/
theorem evalC2_off_end_witness :
    (([] : List labNode)[0]? = none)
    ∧ (List.replicate 8 Value.vNull)[0]? = some Value.vNull
    ∧ evalLoop ctxNull [] 1 0 5 (List.replicate 8 Value.vNull)
        = EvalOut.ok Value.vNull :=
  ⟨rfl, rfl, evalC2_off_end ctxNull [] 0 5 (List.replicate 8 Value.vNull) 0
      Value.vNull rfl rfl⟩

/-! ## C3: cancellation is never checked -/

/-- C3 counterexample: on a cancelled context, the evaluator still performs
the selector lookup and the operator invocation and completes successfully;
cancellation is never checked and never surfaces as an error (engine.go
`Eval` never reads `ctx.Ctx`). -/
theorem evalC3_counterexample :
    Expr.Eval ⟨2, [selNodeX, opNode1]⟩ ctxCancelled 3 = EvalOut.ok (Value.vInt 7) := by
  decide

lemma dispatch_cancel (nodes : List labNode) (curt : labNode) (i : Nat)
    (osTop : Int) (os : List Value) (g : SelectorKey → String → Except String Value)
    (hop : ∀ f, curt.operator = some f → ∀ ps, f ⟨g, true⟩ ps = f ⟨g, false⟩ ps) :
    dispatch ⟨g, true⟩ nodes curt i osTop os = dispatch ⟨g, false⟩ nodes curt i osTop os := by
  cases hco : curt.operator with
  | none => simp only [dispatch, resolveFastChild, hco]
  | some f =>
    have hf : f ⟨g, true⟩ = f ⟨g, false⟩ := funext (hop f hco)
    simp only [dispatch, resolveFastChild, hco, hf]

/-- C3 (amended): the evaluator never consults the cancellation handle.
For any program whose operators do not themselves inspect the handle, the
evaluation outcome on a cancelled context is identical to the outcome on a
non-cancelled one: cancellation does not terminate the evaluation. -/
theorem evalC3_ignores_cancellation (nodes : List labNode)
    (g : SelectorKey → String → Except String Value)
    (hops : ∀ n ∈ nodes, ∀ f, n.operator = some f →
        ∀ ps, f ⟨g, true⟩ ps = f ⟨g, false⟩ ps) :
    ∀ fuel i osTop os,
      evalLoop ⟨g, true⟩ nodes fuel i osTop os
        = evalLoop ⟨g, false⟩ nodes fuel i osTop os := by
  intro fuel
  induction fuel with
  | zero => intro i osTop os; rfl
  | succ fuel ih =>
    intro i osTop os
    cases hni : nodes.get? i with
    | none => simp only [evalLoop, hni]
    | some curt =>
      have hc : curt ∈ nodes := List.get?_mem hni
      have hd := dispatch_cancel nodes curt i osTop os g
        (fun f hf => hops curt hc f hf)
      simp only [evalLoop, hni, hd]
      split
      · exact ih _ _ _
      · rfl
      · rfl
      · split
        · split
          · rfl
          · rfl
          · rfl
          · split
            · rfl
            · exact ih _ _ _
        · split
          · rfl
          · exact ih _ _ _

/-- Witness for C3 (amended): a one-constant program (no operators at all)
evaluates identically on cancelled and non-cancelled contexts. -/
theorem evalC3_ignores_cancellation_witness :
    (∀ n ∈ [constNode (Value.vInt 5)], ∀ f, n.operator = some f →
        ∀ ps, f ⟨gSeven, true⟩ ps = f ⟨gSeven, false⟩ ps)
    ∧ evalLoop ⟨gSeven, true⟩ [constNode (Value.vInt 5)] 2 0 (-1)
          (List.replicate 8 Value.vNull)
        = evalLoop ⟨gSeven, false⟩ [constNode (Value.vInt 5)] 2 0 (-1)
          (List.replicate 8 Value.vNull) := by
  have hyp : ∀ n ∈ [constNode (Value.vInt 5)], ∀ f, n.operator = some f →
      ∀ ps, f ⟨gSeven, true⟩ ps = f ⟨gSeven, false⟩ ps := by
    intro n hn f hf ps
    rw [List.mem_singleton] at hn
    subst hn
    simp [constNode] at hf
  exact ⟨hyp, evalC3_ignores_cancellation [constNode (Value.vInt 5)] gSeven hyp
      2 0 (-1) (List.replicate 8 Value.vNull)⟩

/-- Under the forward-jump invariant, the short-circuit chase starting from
the node at index `k` neither exhausts `nodes.length - k` fuel nor exits at
an index other than its entry index or some index past `k`. -/
lemma scChase_sufficient (nodes : List labNode) (hsc : scForward nodes) :
    ∀ fuel k c, nodes.get? k = some c → nodes.length ≤ k + fuel →
      ∀ b i osTop,
        scChase nodes b fuel i osTop c ≠ ChaseOut.fuelOut
        ∧ (∀ i3 t3, scChase nodes b fuel i osTop c = ChaseOut.exit i3 t3 →
            i3 = i ∨ (k < i3 ∧ i3 < nodes.length)) := by
  intro fuel
  induction fuel with
  | zero =>
    intro k c hk hlen b i osTop
    rcases List.get?_eq_some.mp hk with ⟨hklt, -⟩
    exfalso
    omega
  | succ fuel ih =>
    intro k c hk hlen b i osTop
    rcases List.get?_eq_some.mp hk with ⟨hklt, hkc⟩
    by_cases hm : scMatch b c.flag = true
    · rcases hsc k hklt with hneg | ⟨h1, h2⟩
      · rw [hkc] at hneg
        constructor
        · simp [scChase, hm, hneg]
        · intro i3 t3 hx
          simp [scChase, hm, hneg] at hx
      · rw [hkc] at h1 h2
        have hne1 : ¬ c.scPos = -1 := by omega
        have hne2 : ¬ c.scPos < 0 := by omega
        have htn : c.scPos.toNat < nodes.length := by omega
        have hk2 : nodes.get? c.scPos.toNat = some (nodes.get ⟨c.scPos.toNat, htn⟩) :=
          List.get?_eq_get htn
        have hlen2 : nodes.length ≤ c.scPos.toNat + fuel := by omega
        have hrec := ih c.scPos.toNat (nodes.get ⟨c.scPos.toNat, htn⟩) hk2 hlen2 b
          c.scPos.toNat (nodes.get ⟨c.scPos.toNat, htn⟩).osTop
        have hk2e : nodes[c.scPos.toNat]? = some (nodes.get ⟨c.scPos.toNat, htn⟩) := by
          rw [← List.get?_eq_getElem?]
          exact hk2
        have hstep : scChase nodes b (fuel + 1) i osTop c
            = scChase nodes b fuel c.scPos.toNat
                (nodes.get ⟨c.scPos.toNat, htn⟩).osTop (nodes.get ⟨c.scPos.toNat, htn⟩) := by
          simp [scChase, hm, hne1, hne2, hk2e]
        rw [hstep]
        refine ⟨hrec.1, ?_⟩
        intro i3 t3 hx
        rcases hrec.2 i3 t3 hx with h | h
        · right
          omega
        · right
          exact ⟨by omega, h.2⟩
    · have hm2 : scMatch b c.flag = false := by
        cases hb : scMatch b c.flag
        · rfl
        · exact absurd hb hm
      constructor
      · simp [scChase, hm2]
      · intro i3 t3 hx
        simp [scChase, hm2] at hx
        left
        omega

/-- Every dispatch that produces a result leaves the instruction index
unchanged or (for a fast operator) advanced by two. -/
lemma dispatch_res_idx (ctx : Ctx) (nodes : List labNode) (curt : labNode)
    (i : Nat) (osTop : Int) (os : List Value) (r : Value) (i2 : Nat) (t2 : Int)
    (h : dispatch ctx nodes curt i osTop os = StepOut.res r i2 t2) :
    i2 = i ∨ i2 = i + 2 := by
  simp only [dispatch] at h
  repeat' split at h
  all_goals first
    | exact StepOut.noConfusion h
    | (injection h with h1 h2 h3; omega)

/-- Under the forward-jump invariant, `nodes.length - i` more loop entries
suffice: the evaluator never exhausts that much fuel. -/
lemma evalLoop_sufficient (ctx : Ctx) (nodes : List labNode) (hsc : scForward nodes) :
    ∀ fuel i osTop os, nodes.length - i < fuel →
      evalLoop ctx nodes fuel i osTop os ≠ EvalOut.fuelOut := by
  intro fuel
  induction fuel with
  | zero =>
    intro i osTop os h
    exfalso
    omega
  | succ fuel ih =>
    intro i osTop os hf
    cases hni : nodes.get? i with
    | none =>
      simp only [evalLoop, hni]
      cases os.get? 0 <;> simp
    | some curt =>
      rcases List.get?_eq_some.mp hni with ⟨hilt, -⟩
      simp only [evalLoop, hni]
      cases hd : dispatch ctx nodes curt i osTop os with
      | skip => exact ih (i + 1) osTop os (by omega)
      | err e => simp
      | panicked => simp
      | res r i2 t2 =>
        have hidx := dispatch_res_idx ctx nodes curt i osTop os r i2 t2 hd
        cases r with
        | vBool b =>
          have hcs := scChase_sufficient nodes hsc (nodes.length + 1) i curt hni
            (by omega) b i2 t2
          cases hch : scChase nodes b (nodes.length + 1) i2 t2 curt with
          | ret => simp [hch]
          | panicked => simp [hch]
          | fuelOut => exact absurd hch hcs.1
          | exit i3 t3 =>
            have hb := hcs.2 i3 t3 hch
            simp only [hch]
            cases hw : osWrite os (t3 + 1) (Value.vBool b) with
            | none => simp [hw]
            | some os2 =>
              simp only [hw]
              exact ih (i3 + 1) (t3 + 1) os2 (by omega)
        | vInt a =>
          cases hw : osWrite os (t2 + 1) (Value.vInt a) with
          | none => simp [hw]
          | some os2 =>
            simp only [hw]
            exact ih (i2 + 1) (t2 + 1) os2 (by omega)
        | vStr a =>
          cases hw : osWrite os (t2 + 1) (Value.vStr a) with
          | none => simp [hw]
          | some os2 =>
            simp only [hw]
            exact ih (i2 + 1) (t2 + 1) os2 (by omega)
        | vInts a =>
          cases hw : osWrite os (t2 + 1) (Value.vInts a) with
          | none => simp [hw]
          | some os2 =>
            simp only [hw]
            exact ih (i2 + 1) (t2 + 1) os2 (by omega)
        | vStrs a =>
          cases hw : osWrite os (t2 + 1) (Value.vStrs a) with
          | none => simp [hw]
          | some os2 =>
            simp only [hw]
            exact ih (i2 + 1) (t2 + 1) os2 (by omega)
        | vNull =>
          cases hw : osWrite os (t2 + 1) Value.vNull with
          | none => simp [hw]
          | some os2 =>
            simp only [hw]
            exact ih (i2 + 1) (t2 + 1) os2 (by omega)

/-- C7: for any program satisfying the layout invariant (every node's
`sc_target` is `-1` or a strictly later index) and any context in which
all selector lookups succeed and no operator returns an error, `Eval`
terminates within `len(program)` dispatched steps (the fuel
`len(program) + 1` counts one entry per dispatched step plus the final
loop-exit check, and is never exhausted). -/
theorem evalC7_terminates (e : Expr) (ctx : Ctx)
    (hsc : scForward e.labNodes)
    (hget : ∀ k s, ∃ v, ctx.get k s = Except.ok v)
    (hop : ∀ n ∈ e.labNodes, ∀ f, n.operator = some f →
        ∀ ps, ∃ v, f ctx ps = OpRes.ok v) :
    Expr.Eval e ctx (e.labNodes.length + 1) ≠ EvalOut.fuelOut := by
  unfold Expr.Eval
  exact evalLoop_sufficient ctx e.labNodes hsc (e.labNodes.length + 1) 0 (-1) _ (by omega)

/-- Witness for C7: a concrete one-node program under a total context. -/
theorem evalC7_terminates_witness :
    scForward [constNode (Value.vInt 1)]
    ∧ (∀ k s, ∃ v, ctxNull.get k s = Except.ok v)
    ∧ Expr.Eval ⟨1, [constNode (Value.vInt 1)]⟩ ctxNull 2 ≠ EvalOut.fuelOut := by
  have hsc : scForward [constNode (Value.vInt 1)] := by decide
  have hget : ∀ k s, ∃ v, ctxNull.get k s = Except.ok v := fun k s => ⟨Value.vNull, rfl⟩
  have hop : ∀ n ∈ [constNode (Value.vInt 1)], ∀ f, n.operator = some f →
      ∀ ps, ∃ v, f ctxNull ps = OpRes.ok v := by
    intro n hn f hf ps
    rw [List.mem_singleton] at hn
    subst hn
    simp [constNode] at hf
  exact ⟨hsc, hget, evalC7_terminates ⟨1, [constNode (Value.vInt 1)]⟩ ctxNull hsc hget hop⟩

/-! ## C4: the `if` keyword -/

/-- C4: `(if cond then else)` requires exactly three children (any other
arity is a positional parameters-count error); the produced node has the
Conditional kind, its operator returns the negation of a boolean first
parameter and a type error on a non-boolean one, and a synthetic fourth
"fi" child is appended whose operator returns `true` unconditionally. -/
theorem parseC4_if_node (p : parser) (car : token) (children : List astNode)
    (hcar : car.val = "if") :
    (children.length ≠ 3 →
      p.buildKeywordNode car children = PRes.err (paramsCountErr 3 children.length car))
    ∧ (children.length = 3 →
      ∃ ast, p.buildKeywordNode car children = PRes.ok ast
        ∧ ast.nd.flag = cond
        ∧ ast.nd.operator = some condIfOp
        ∧ ast.children = children ++ [fiNode]
        ∧ (∀ ctx b rest, condIfOp ctx (Value.vBool b :: rest) = OpRes.ok (Value.vBool !b))
        ∧ (∀ ctx v rest, (∀ b, v ≠ Value.vBool b) →
            ∃ msg, condIfOp ctx (v :: rest) = OpRes.err msg)
        ∧ fiNode.nd.flag = cond
        ∧ fiNode.nd.operator = some fiOp
        ∧ (∀ ctx ps, fiOp ctx ps = OpRes.ok (Value.vBool true))) := by
  constructor
  · intro h3
    simp [parser.buildKeywordNode, hcar, keywordIf, h3]
  · intro h3
    refine ⟨.mk { flag := cond, value := Value.vStr "if", operator := some condIfOp }
      (children ++ [fiNode]) 0 0 0, ?_, rfl, rfl, rfl, ?_, ?_, rfl, rfl, ?_⟩
    · simp [parser.buildKeywordNode, hcar, keywordIf, h3]
    · intro ctx b rest
      rfl
    · intro ctx v rest hv
      cases v with
      | vBool b => exact absurd rfl (hv b)
      | vInt a => exact ⟨_, rfl⟩
      | vStr a => exact ⟨_, rfl⟩
      | vInts a => exact ⟨_, rfl⟩
      | vStrs a => exact ⟨_, rfl⟩
      | vNull => exact ⟨_, rfl⟩
    · intro ctx ps
      rfl

/-- Witness for C4: `if` applied to zero children is the positional
parameters-count error. -/
theorem parseC4_if_node_witness :
    carIf.val = "if"
    ∧ pDummy.buildKeywordNode carIf []
        = PRes.err (paramsCountErr 3 ([] : List astNode).length carIf) :=
  ⟨rfl, (parseC4_if_node pDummy carIf [] rfl).1 (by decide)⟩

/-! ## C5: bare-identifier resolution precedence -/

/-- C5: a bare identifier in expression position resolves with this
precedence: builtin constant, caller constant map, caller selector map,
`Undefined` selector when unknown selectors are allowed, else a positional
error. -/
theorem parseC5_ident_resolution (pkg : Pkg) (p : parser) (t : token) (fuel : Nat)
    (ht : p.tokens[p.idx]? = some t)
    (hid : t.typ = ident) :
    (∀ v, pkg.builtinConstants t.val = some v →
      parser.parseExpression pkg (fuel + 1) p = PRes.ok (p.valNode v, p.walk))
    ∧ (pkg.builtinConstants t.val = none → ∀ v, p.conf.ConstantMap t.val = some v →
      parser.parseExpression pkg (fuel + 1) p = PRes.ok (p.valNode v, p.walk))
    ∧ (pkg.builtinConstants t.val = none → p.conf.ConstantMap t.val = none →
      ∀ key, p.conf.SelectorMap t.val = some key →
      parser.parseExpression pkg (fuel + 1) p
        = PRes.ok (.mk { flag := selector, value := Value.vStr t.val, selKey := key } [] 0 0 0,
            p.walk))
    ∧ (pkg.builtinConstants t.val = none → p.conf.ConstantMap t.val = none →
      p.conf.SelectorMap t.val = none → p.conf.AllowUnknownSelectors = true →
      parser.parseExpression pkg (fuel + 1) p
        = PRes.ok (.mk { flag := selector, value := Value.vStr t.val, selKey := UndefinedSelKey } [] 0 0 0,
            p.walk))
    ∧ (pkg.builtinConstants t.val = none → p.conf.ConstantMap t.val = none →
      p.conf.SelectorMap t.val = none → p.conf.AllowUnknownSelectors = false →
      parser.parseExpression pkg (fuel + 1) p = PRes.err (unknownTokenError t)) := by
  refine ⟨?_, ?_, ?_, ?_, ?_⟩
  · intro v hv
    simp [parser.parseExpression, parser.parseSingleNode, parser.parseInt, parser.parseStr,
      parser.parseConst, parser.parseSelector, parser.parseList, parser.peek,
      ht, hid, hv, ident, integer, str, lParen]
  · intro h1 v hv
    simp [parser.parseExpression, parser.parseSingleNode, parser.parseInt, parser.parseStr,
      parser.parseConst, parser.parseSelector, parser.parseList, parser.peek,
      ht, hid, h1, hv, ident, integer, str, lParen]
  · intro h1 h2 key hv
    simp [parser.parseExpression, parser.parseSingleNode, parser.parseInt, parser.parseStr,
      parser.parseConst, parser.parseSelector, parser.parseList, parser.peek,
      ht, hid, h1, h2, hv, ident, integer, str, lParen]
  · intro h1 h2 h3 h4
    simp [parser.parseExpression, parser.parseSingleNode, parser.parseInt, parser.parseStr,
      parser.parseConst, parser.parseSelector, parser.parseList, parser.peek,
      parser.allowUnknownSelectors, ht, hid, h1, h2, h3, h4, ident, integer, str, lParen]
  · intro h1 h2 h3 h4
    simp [parser.parseExpression, parser.parseSingleNode, parser.parseInt, parser.parseStr,
      parser.parseConst, parser.parseSelector, parser.parseList, parser.peek,
      parser.allowUnknownSelectors, ht, hid, h1, h2, h3, h4, ident, integer, str, lParen]

/-- Witness for C5: an unknown identifier with empty registries and
unknown selectors disallowed is the positional unknown-token error. -/
theorem parseC5_ident_resolution_witness :
    pIdentX.tokens[pIdentX.idx]? = some tokX
    ∧ tokX.typ = ident
    ∧ parser.parseExpression pkgEmpty 1 pIdentX = PRes.err (unknownTokenError tokX) :=
  ⟨rfl, rfl,
    (parseC5_ident_resolution pkgEmpty pIdentX tokX 0 rfl rfl).2.2.2.2 rfl rfl rfl rfl⟩

/-! ## C6: first-match lexing -/

/-- C6: at every non-space input position the lexers are tried in the
fixed order paren, integer, string, ident, comment; the first one that
consumes characters produces the token, and if none does the whole lex
fails with a positional error. -/
theorem lexC6_first_match (bops : String → Option Operator) (A : List Char)
    (i : Nat) (fuel : Nat) (c : Char)
    (hc : A[i]? = some c)
    (hw : c.isWhitespace = false) :
    (∀ t j, lexParen A i = some (t, j) →
        lexLoop bops A (fuel + 1) i = lexCons bops A fuel i t j)
    ∧ (lexParen A i = none → ∀ t j, lexInteger A i = some (t, j) →
        lexLoop bops A (fuel + 1) i = lexCons bops A fuel i t j)
    ∧ (lexParen A i = none → lexInteger A i = none → ∀ t j, lexStr A i = some (t, j) →
        lexLoop bops A (fuel + 1) i = lexCons bops A fuel i t j)
    ∧ (lexParen A i = none → lexInteger A i = none → lexStr A i = none →
        ∀ t j, lexIdent bops A i = some (t, j) →
        lexLoop bops A (fuel + 1) i = lexCons bops A fuel i t j)
    ∧ (lexParen A i = none → lexInteger A i = none → lexStr A i = none →
        lexIdent bops A i = none → ∀ t j, lexComment A i = some (t, j) →
        lexLoop bops A (fuel + 1) i = lexCons bops A fuel i t j)
    ∧ (lexParen A i = none → lexInteger A i = none → lexStr A i = none →
        lexIdent bops A i = none → lexComment A i = none →
        lexLoop bops A (fuel + 1) i = PRes.err (PErr.posErr "can not parse token" i)) := by
  refine ⟨?_, ?_, ?_, ?_, ?_, ?_⟩
  · intro t j h1
    simp [lexLoop, runLexers, lexCons, hc, hw, h1]
  · intro h1 t j h2
    simp [lexLoop, runLexers, lexCons, hc, hw, h1, h2]
  · intro h1 h2 t j h3
    simp [lexLoop, runLexers, lexCons, hc, hw, h1, h2, h3]
  · intro h1 h2 h3 t j h4
    simp [lexLoop, runLexers, lexCons, hc, hw, h1, h2, h3, h4]
  · intro h1 h2 h3 h4 t j h5
    simp [lexLoop, runLexers, lexCons, hc, hw, h1, h2, h3, h4, h5]
  · intro h1 h2 h3 h4 h5
    simp [lexLoop, runLexers, hc, hw, h1, h2, h3, h4, h5]

/-- Witness for C6: `?` matches no lexer, so lexing fails with the
positional "can not parse token" error. -/
theorem lexC6_first_match_witness :
    (['?'][0]? = some '?')
    ∧ ('?'.isWhitespace = false)
    ∧ lexLoop pkgEmpty.builtinOperators ['?'] 1 0
        = PRes.err (PErr.posErr "can not parse token" 0) :=
  ⟨rfl, by decide,
    (lexC6_first_match pkgEmpty.builtinOperators ['?'] 0 0 '?' rfl (by decide)).2.2.2.2.2
      rfl rfl rfl rfl rfl⟩

/-! ## C8: empty token stream panics -/

/-- C8: when every lexed token is a comment (so the stream is empty after
the comment filter — empty source, white space only, or comments only),
`parseAstTree` does not return an error: it panics with an index out of
range when `checkParentheses` reads the first token of the empty stream. -/
theorem parseC8_empty_panics (pkg : Pkg) (p : parser) (fuel : Nat)
    (hall : ∀ t ∈ p.tokens, t.typ = comment) :
    parser.parseAstTree pkg p fuel = PRes.panicked := by
  have hfil : p.tokens.filter (fun t => t.typ != comment) = [] := by
    rw [List.filter_eq_nil_iff]
    intro t ht
    simp [hall t ht]
  simp [parser.parseAstTree, hfil, parser.checkParentheses]

/-- Witness for C8: a single comment token. -/
theorem parseC8_empty_panics_witness :
    (∀ t ∈ [tokComment], t.typ = comment)
    ∧ parser.parseAstTree pkgEmpty
        { source := [], conf := confEmpty, tokens := [tokComment], idx := 0 } 1
      = PRes.panicked := by
  have hall : ∀ t ∈ [tokComment], t.typ = comment := by
    intro t ht
    rw [List.mem_singleton] at ht
    subst ht
    rfl
  exact ⟨hall, parseC8_empty_panics pkgEmpty
    { source := [], conf := confEmpty, tokens := [tokComment], idx := 0 } 1 hall⟩

/-! ## C9: the empty list literal -/

/-- C9: `(` immediately followed by `)` is accepted and produces a
Constant node whose value is the empty list of STRINGS (never an integer
list, never an error), the parser advancing past both tokens. -/
theorem parseC9_empty_list (pkg : Pkg) (p : parser) (t0 t1 : token) (fuel : Nat)
    (h0 : p.tokens[p.idx]? = some t0)
    (h1 : p.tokens[(p.idx + 1)]? = some t1)
    (ht0 : t0.typ = lParen)
    (ht1 : t1.typ = rParen) :
    parser.parseExpression pkg (fuel + 1) p
      = PRes.ok (.mk { flag := constant, value := Value.vStrs [] } [] 0 0 0,
          { p with idx := p.idx + 2 }) := by
  have h1g : p.tokens.get? (p.idx + 1) = some t1 := by
    rw [List.get?_eq_getElem?]
    exact h1
  have hlt : p.idx + 1 < p.tokens.length := (List.get?_eq_some.mp h1g).1
  have hdrop : p.tokens.drop (p.idx + 1) = t1 :: p.tokens.drop (p.idx + 2) := by
    rw [List.drop_eq_getElem_cons hlt]
    have hg : p.tokens[p.idx + 1] = t1 := by
      have := (List.get?_eq_some.mp h1g).2
      simpa [List.get_eq_getElem] using this
    rw [hg]
  simp [parser.parseExpression, parser.parseSingleNode, parser.parseInt, parser.parseStr,
    parser.parseConst, parser.parseSelector, parser.parseList, parser.peek,
    ht0, ht1, h0, h1, hdrop, listScan, ident, integer, str, lParen, rParen, comment]

/-- Witness for C9: the two-token stream `( )`. -/
theorem parseC9_empty_list_witness :
    pEmptyList.tokens[pEmptyList.idx]? = some tokLP
    ∧ pEmptyList.tokens[(pEmptyList.idx + 1)]? = some tokRP
    ∧ parser.parseExpression pkgEmpty 1 pEmptyList
        = PRes.ok (.mk { flag := constant, value := Value.vStrs [] } [] 0 0 0,
            { pEmptyList with idx := pEmptyList.idx + 2 }) :=
  ⟨rfl, rfl, parseC9_empty_list pkgEmpty pEmptyList tokLP tokRP 0 rfl rfl rfl rfl⟩

/-- C10: with more than one config the package-level `Eval` returns
"error: too many compile configurations" for EVERY compile environment —
so nothing is compiled or evaluated; with exactly one config it compiles
under that config; with none it compiles under a fresh config built from
the variable map. -/
theorem evalC10_confs (env : CompileEnv) (expr : String)
    (vals : List (String × Value)) (fuel : Nat) :
    (∀ confs : List CompileConfig, confs.length > 1 →
      Eval env expr vals confs fuel = EvalOut.err "error: too many compile configurations")
    ∧ (∀ c, Eval env expr vals [c] fuel
        = match env.Compile c expr with
          | Except.error e => EvalOut.err e
          | Except.ok tree => tree.Eval (env.NewCtxWithMap c vals) fuel)
    ∧ (Eval env expr vals [] fuel
        = match env.Compile (env.NewConfigFromVals vals) expr with
          | Except.error e => EvalOut.err e
          | Except.ok tree =>
              tree.Eval (env.NewCtxWithMap (env.NewConfigFromVals vals) vals) fuel) := by
  refine ⟨?_, ?_, ?_⟩
  · intro confs hlen
    simp [Eval, hlen]
  · intro c
    simp [Eval]
  · simp [Eval]

/-- Witness for C10: two configs trigger the error for a trivial
environment. -/
theorem evalC10_confs_witness :
    ([confEmpty, confEmpty].length > 1)
    ∧ Eval envTriv "(+ 1 2)" [] [confEmpty, confEmpty] 1
        = EvalOut.err "error: too many compile configurations" :=
  ⟨by decide, (evalC10_confs envTriv "(+ 1 2)" [] 1).1 [confEmpty, confEmpty] (by decide)⟩

end eval
